import Mathlib

/-!
Verification development for the OSINT ingestion pipeline
(`src/execution/ingest_elastic.py`).

The Python module is shallowly embedded: JSON values become the inductive
type `Json`; the impure pieces (wall clock, filesystem walk, the
Elasticsearch client) are modelled as explicit parameters; Python
exceptions become `Except PyErr`; the `logging` calls become explicit
lists of `LogEntry` values returned alongside results.
-/

/-- A JSON value as produced by Python's `json.load`: `None`, booleans,
numbers (restricted to integers in this model), strings, arrays and
objects (association lists of string keys, insertion ordered). -/
inductive Json where
  | null : Json
  | bool (b : Bool) : Json
  | num (n : Int) : Json
  | str (s : String) : Json
  | arr (xs : List Json) : Json
  | obj (kvs : List (String × Json)) : Json
deriving Repr

/-! ### UTF-8 encoding (`str.encode('utf-8')`) -/

/-- UTF-8 encoding of a single Unicode code point, as a list of bytes. -/
def utf8EncodeChar (c : Char) : List Nat :=
  let n := c.toNat
  if n < 0x80 then [n]
  else if n < 0x800 then
    [0xC0 ||| (n >>> 6), 0x80 ||| (n &&& 0x3F)]
  else if n < 0x10000 then
    [0xE0 ||| (n >>> 12), 0x80 ||| ((n >>> 6) &&& 0x3F), 0x80 ||| (n &&& 0x3F)]
  else
    [0xF0 ||| (n >>> 18), 0x80 ||| ((n >>> 12) &&& 0x3F),
     0x80 ||| ((n >>> 6) &&& 0x3F), 0x80 ||| (n &&& 0x3F)]

/-- Python `s.encode('utf-8')`: the UTF-8 byte sequence of a string. -/
def utf8Encode (s : String) : List Nat :=
  (s.data.map utf8EncodeChar).flatten

/-! ### SHA-256 (`hashlib.sha256`), per FIPS 180-4, over byte lists -/

/-- Truncation to a 32-bit word. -/
def w32 (x : Nat) : Nat := x % 4294967296

/-- Right rotation of a 32-bit word by `n` bits. -/
def rotr32 (n x : Nat) : Nat := w32 ((x >>> n) ||| (x <<< (32 - n)))

/-- Bitwise complement of a 32-bit word. -/
def not32 (x : Nat) : Nat := x ^^^ 4294967295

def shaCh (x y z : Nat) : Nat := (x &&& y) ^^^ (not32 x &&& z)

def shaMaj (x y z : Nat) : Nat := (x &&& y) ^^^ (x &&& z) ^^^ (y &&& z)

def shaBigSigma0 (x : Nat) : Nat := rotr32 2 x ^^^ rotr32 13 x ^^^ rotr32 22 x

def shaBigSigma1 (x : Nat) : Nat := rotr32 6 x ^^^ rotr32 11 x ^^^ rotr32 25 x

def shaSmallSigma0 (x : Nat) : Nat := rotr32 7 x ^^^ rotr32 18 x ^^^ (x >>> 3)

def shaSmallSigma1 (x : Nat) : Nat := rotr32 17 x ^^^ rotr32 19 x ^^^ (x >>> 10)

/-- The 64 SHA-256 round constants. -/
def shaK : List Nat :=
  [1116352408, 1899447441, 3049323471, 3921009573,
   961987163, 1508970993, 2453635748, 2870763221,
   3624381080, 310598401, 607225278, 1426881987,
   1925078388, 2162078206, 2614888103, 3248222580,
   3835390401, 4022224774, 264347078, 604807628,
   770255983, 1249150122, 1555081692, 1996064986,
   2554220882, 2821834349, 2952996808, 3210313671,
   3336571891, 3584528711, 113926993, 338241895,
   666307205, 773529912, 1294757372, 1396182291,
   1695183700, 1986661051, 2177026350, 2456956037,
   2730485921, 2820302411, 3259730800, 3345764771,
   3516065817, 3600352804, 4094571909, 275423344,
   430227734, 506948616, 659060556, 883997877,
   958139571, 1322822218, 1537002063, 1747873779,
   1955562222, 2024104815, 2227730452, 2361852424,
   2428436474, 2756734187, 3204031479, 3329325298]

/-- The initial SHA-256 hash state. -/
def shaH0 : List Nat :=
  [1779033703, 3144134277, 1013904242, 2773480762,
   1359893119, 2600822924, 528734635, 1541459225]

/-- Big-endian byte expansion of `n` into `k` bytes. -/
def natToBytesBE (k n : Nat) : List Nat :=
  match k with
  | 0 => []
  | k + 1 => natToBytesBE k (n / 256) ++ [n % 256]

/-- SHA-256 message padding: append `0x80`, zero bytes to 56 mod 64, then
the bit length as an 8-byte big-endian integer. -/
def sha256Pad (msg : List Nat) : List Nat :=
  let padZeros := (119 - msg.length % 64) % 64
  msg ++ [0x80] ++ List.replicate padZeros 0 ++ natToBytesBE 8 (msg.length * 8)

/-- Split a byte list into successive 64-byte blocks. -/
def chunks64 : List Nat → List (List Nat)
  | [] => []
  | b :: rest => ((b :: rest).take 64) :: chunks64 ((b :: rest).drop 64)
termination_by l => l.length
decreasing_by
  simp [List.length_drop]
  omega

/-- Pack big-endian 4-byte groups into 32-bit words. -/
def bytesToWords : List Nat → List Nat
  | b0 :: b1 :: b2 :: b3 :: rest =>
      (((b0 * 256 + b1) * 256 + b2) * 256 + b3) :: bytesToWords rest
  | _ => []

/-- Extend the message schedule: `rw` is the schedule built so far, in
reverse order; `k` more words are appended. -/
def shaExtend (rw : List Nat) : Nat → List Nat
  | 0 => rw.reverse
  | k + 1 =>
      let next := w32 (shaSmallSigma1 (rw.getD 1 0) + rw.getD 6 0 +
        shaSmallSigma0 (rw.getD 14 0) + rw.getD 15 0)
      shaExtend (next :: rw) k

/-- One round of the SHA-256 compression function; the state is the list
`[a, b, c, d, e, f, g, h]` and `kw` the round constant plus schedule word. -/
def shaRound (st : List Nat) (kw : Nat × Nat) : List Nat :=
  match st with
  | [a, b, c, d, e, f, g, h] =>
      let t1 := w32 (h + shaBigSigma1 e + shaCh e f g + kw.1 + kw.2)
      let t2 := w32 (shaBigSigma0 a + shaMaj a b c)
      [w32 (t1 + t2), a, b, c, w32 (d + t1), e, f, g]
  | other => other

/-- Process one 64-byte block, updating the eight-word hash state. -/
def shaBlock (h : List Nat) (block : List Nat) : List Nat :=
  let ws := shaExtend (bytesToWords block).reverse 48
  let fin := (shaK.zip ws).foldl shaRound h
  (h.zip fin).map (fun p => w32 (p.1 + p.2))

/-- The SHA-256 digest of a byte list, as eight 32-bit words. -/
def sha256Words (msg : List Nat) : List Nat :=
  (chunks64 (sha256Pad msg)).foldl shaBlock shaH0

/-- A lowercase hexadecimal digit. -/
def hexDigit (n : Nat) : Char :=
  "0123456789abcdef".data.getD n '0'

/-- Fixed-width lowercase hexadecimal rendering of `n` with `k` digits. -/
def toHexFixed : Nat → Nat → String
  | 0, _ => ""
  | k + 1, n => toHexFixed k (n / 16) ++ String.singleton (hexDigit (n % 16))

/-- Python `hashlib.sha256(bytes).hexdigest()`: the 64-character lowercase hex
digest of a byte list. -/
def sha256Hex (msg : List Nat) : String :=
  String.join ((sha256Words msg).map (toHexFixed 8))

/-- Line 42: `generate_doc_id(content_str)` returns
`hashlib.sha256(content_str.encode('utf-8')).hexdigest()`. -/
def generate_doc_id (content_str : String) : String :=
  sha256Hex (utf8Encode content_str)

/-! ### Canonical JSON serialization: `json.dumps(item, sort_keys=True)` -/

/-- Four-digit `\uXXXX` escape used by `json.dumps` with `ensure_ascii`. -/
def jsonUEscape (n : Nat) : String :=
  "\\u" ++ toHexFixed 4 n

/-- The `json.dumps` rendering of one character of a string
(`ensure_ascii=True`, the default). -/
def escapeJsonChar (c : Char) : String :=
  if c = '"' then "\\\""
  else if c = '\\' then "\\\\"
  else if c = '\n' then "\\n"
  else if c = '\r' then "\\r"
  else if c = '\t' then "\\t"
  else if c.toNat = 8 then "\\b"
  else if c.toNat = 12 then "\\f"
  else if c.toNat < 0x20 then jsonUEscape c.toNat
  else if c.toNat < 0x7f then String.singleton c
  else if c.toNat < 0x10000 then jsonUEscape c.toNat
  else
    jsonUEscape (0xD800 + (c.toNat - 0x10000) / 1024) ++
      jsonUEscape (0xDC00 + (c.toNat - 0x10000) % 1024)

/-- The `json.dumps` rendering of a string, quotes included. -/
def encodeJsonString (s : String) : String :=
  "\"" ++ String.join (s.data.map escapeJsonChar) ++ "\""

/-- With `sort_keys=True`, object entries are emitted in increasing key order
(Python sorts the keys; dict keys are unique, so this determines the
entry order). -/
def sortPairs (kvs : List (String × Json)) : List (String × Json) :=
  List.insertionSort (fun a b => a.1 ≤ b.1) kvs

/-- Python `json.dumps(j, sort_keys=True)` with the default separators
`(', ', ': ')` and `ensure_ascii=True`. -/
def dumps : Json → String
  | .null => "null"
  | .bool true => "true"
  | .bool false => "false"
  | .num n => toString n
  | .str s => encodeJsonString s
  | .arr xs =>
      "[" ++ String.intercalate ", " (xs.attach.map (fun x => dumps x.1)) ++ "]"
  | .obj kvs =>
      "\x7b" ++ String.intercalate ", "
          ((sortPairs kvs).attach.map
            (fun p => encodeJsonString p.1.1 ++ ": " ++ dumps p.1.2)) ++
        "\x7d"
termination_by j => sizeOf j
decreasing_by
  · have h1 : sizeOf x.1 < sizeOf xs := List.sizeOf_lt_of_mem x.2
    simp only [Json.arr.sizeOf_spec]
    omega
  · have hmem : p.1 ∈ sortPairs kvs := p.2
    unfold sortPairs at hmem
    have hmem2 : p.1 ∈ kvs :=
      (List.perm_insertionSort (fun a b => a.1 ≤ b.1) kvs).subset hmem
    have h1 : sizeOf p.1 < sizeOf kvs := List.sizeOf_lt_of_mem hmem2
    have h2 : sizeOf p.1.2 < sizeOf p.1 := by
      obtain ⟨k, v⟩ := p.1
      simp [Prod.mk.sizeOf_spec]
    simp only [Json.obj.sizeOf_spec]
    omega

/-! ### Python runtime semantics needed by `normalize_document` -/

/-- A Python exception, as raised by the operations the module uses. -/
inductive PyErr where
  | typeError (msg : String) : PyErr
  | attributeError (msg : String) : PyErr
  | keyError (key : String) : PyErr
deriving Repr

/-- The rendering of an exception by an f-string (`f"... {e}"`). -/
def PyErr.text : PyErr → String
  | .typeError m => m
  | .attributeError m => m
  | .keyError k => "'" ++ k ++ "'"

/-- Severity of a log line emitted through the `logging` module. -/
inductive LogLevel where
  | info : LogLevel
  | warning : LogLevel
  | error : LogLevel
deriving Repr, DecidableEq

/-- One line emitted through the `logging` module. -/
structure LogEntry where
  level : LogLevel
  msg : String
deriving Repr, DecidableEq

/-- Contiguous-substring test on lists: does `needle` occur inside the
second list?  (Python's `in` on strings.) -/
def containsSub [BEq α] (needle : List α) : List α → Bool
  | [] => needle.isEmpty
  | a :: rest => needle.isPrefixOf (a :: rest) || containsSub needle rest

/-- Python's `needle in container` for a string needle: key containment
for dicts, substring test for strings, element membership for lists, and
a `TypeError` for values that are not containers (numbers, booleans,
`None`). -/
def pyContains (needle : String) : Json → Except PyErr Bool
  | .obj kvs => .ok (kvs.any (fun p => p.1 == needle))
  | .str s => .ok (containsSub needle.data s.data)
  | .arr xs =>
      .ok (xs.any (fun x => match x with | .str t => t == needle | _ => false))
  | _ => .error (.typeError "argument of type is not iterable")

/-- Python's `item.get(key, default)`: only mappings have a `get`
attribute; on a mapping it returns the stored value whenever the key is
present (even when that value is `None`), and `default` otherwise. -/
def pyGet (item : Json) (key : String) (default : Json) : Except PyErr Json :=
  match item with
  | .obj kvs =>
      .ok (match kvs.lookup key with
           | some v => v
           | none => default)
  | _ => .error (.attributeError "object has no attribute get")

/-- Python's `container[key]` for a string key: mapping lookup (a
`KeyError` when absent); strings and lists reject string subscripts with
a `TypeError`, as do all other values. -/
def pySubscript (container : Json) (key : String) : Except PyErr Json :=
  match container with
  | .obj kvs =>
      match kvs.lookup key with
      | some v => .ok v
      | none => .error (.keyError key)
  | _ => .error (.typeError "indices must be integers")

/-- Python's `for item in items`: lists yield their elements, strings
their characters (as one-character strings), mappings their keys;
anything else raises a `TypeError`. -/
def pyIter : Json → Except PyErr (List Json)
  | .arr xs => .ok xs
  | .str s => .ok (s.data.map (fun c => .str (String.singleton c)))
  | .obj kvs => .ok (kvs.map (fun p => .str p.1))
  | _ => .error (.typeError "object is not iterable")

/-! ### `normalize_document` (lines 45-92) -/

/-- The canonical-document dictionary literal of lines 78-89, given the
already-computed source/data types and extracted fields.  `now` models
the `datetime.now().isoformat()` call. -/
def mkDoc (now filename source_type data_type : String)
    (title body url item : Json) (report_id : String) :
    List (String × Json) :=
  [("timestamp", .str now),
   ("source_file", .str filename),
   ("source_type", .str source_type),
   ("data_type", .str data_type),
   ("title", title),
   ("body", body),
   ("url", url),
   ("raw_source", item),
   ("report_id", .str report_id),
   ("_id", .str (generate_doc_id (dumps item)))]

/-- The body of the `for item in items` loop (lines 64-90): source/data
type detection by the `in` operator, field extraction through `.get`,
and construction of the document dictionary. -/
def processItem (item : Json) (filename now report_id : String) :
    Except PyErr (List (String × Json)) := do
  let hasSource ← pyContains "source" item
  let cond1 ← if hasSource then pyContains "uri" item else pure false
  let stdt ←
    if cond1 then pure ("news", "article")
    else do
      let hasUrl ← pyContains "url" item
      pure (if hasUrl then ("web", "page") else ("unknown", "unknown"))
  let title ← pyGet item "title" (.str "")
  let contentVal ← pyGet item "content" (.str "")
  let body ← pyGet item "body" contentVal
  let linkVal ← pyGet item "link" (.str "")
  let url ← pyGet item "url" linkVal
  pure (mkDoc now filename stdt.1 stdt.2 title body url item report_id)

/-- Lines 45-92: `normalize_document(raw_doc, filename, valid_timestamp,
report_id)`.  The wall clock is modelled by the extra `now` parameter
(the `valid_timestamp` argument is accepted and ignored, exactly as in
the source).  The returned log list holds the lines the function emits
through `logging`; Python exceptions surface as `.error`. -/
def normalize_document (raw_doc : Json)
    (filename valid_timestamp report_id now : String) :
    Except PyErr (List (List (String × Json)) × List LogEntry) := do
  match raw_doc with
  | .arr xs => do
      let docs ← xs.mapM (fun item => processItem item filename now report_id)
      pure (docs, [])
  | .obj kvs => do
      let wrapped ←
        if kvs.any (fun p => p.1 == "articles") then do
          let articles ← pySubscript (.obj kvs) "articles"
          pyContains "results" articles
        else pure false
      if wrapped then do
        let articles ← pySubscript (.obj kvs) "articles"
        let itemsVal ← pySubscript articles "results"
        let items ← pyIter itemsVal
        let docs ← items.mapM (fun item => processItem item filename now report_id)
        pure (docs, [])
      else do
        let docs ← [Json.obj kvs].mapM
          (fun item => processItem item filename now report_id)
        pure (docs, [])
  | _ =>
      pure ([], [⟨.warning, "Unknown JSON structure in " ++ filename⟩])

/-! ### Pure helpers used to state properties of `normalize_document` -/

/-- Key presence in a mapping (`key in item` for a dict item). -/
def hasKey (key : String) (kvs : List (String × Json)) : Bool :=
  kvs.any (fun p => p.1 == key)

/-- Python `item.get(key, default)` specialised to mappings. -/
def dictGet (kvs : List (String × Json)) (key : String) (default : Json) : Json :=
  match kvs.lookup key with
  | some v => v
  | none => default

/-- The source/data type classification of lines 64-76, specialised to
mapping items: `(news, article)` when both `source` and `uri` keys are
present, else `(web, page)` when a `url` key is present, else
`(unknown, unknown)`. -/
def source_data_type (kvs : List (String × Json)) : String × String :=
  if hasKey "source" kvs && hasKey "uri" kvs then ("news", "article")
  else if hasKey "url" kvs then ("web", "page")
  else ("unknown", "unknown")

/-! ### Path handling (`os.path` on POSIX paths) and the walker's tests -/

/-- Python `p.rfind('/') + 1`: the index one past the final slash (0 when the
path has no slash), shared by `os.path.dirname` and `os.path.basename`. -/
def lastSlashIdx (cs : List Char) : Nat :=
  match cs.reverse.findIdx? (fun c => c = '/') with
  | some k => cs.length - k
  | none => 0

/-- Python `os.path.dirname` (POSIX): everything before the final slash, with
trailing slashes stripped unless the head is empty or all slashes. -/
def py_dirname (p : String) : String :=
  let head := p.data.take (lastSlashIdx p.data)
  if head ≠ [] ∧ head.any (fun c => c ≠ '/') then
    String.mk ((head.reverse.dropWhile (fun c => c = '/')).reverse)
  else
    String.mk head

/-- Python `os.path.basename` (POSIX): everything after the final slash. -/
def py_basename (p : String) : String :=
  String.mk (p.data.drop (lastSlashIdx p.data))

/-- Python's `s.split(sep)` for a one-character separator, over char
lists: split at every occurrence (`"".split` gives one empty segment). -/
def splitOnChar (sep : Char) : List Char → List (List Char)
  | [] => [[]]
  | c :: rest =>
      match splitOnChar sep rest with
      | [] => [[]]
      | cur :: groups =>
          if c = sep then [] :: cur :: groups else (c :: cur) :: groups

/-- Python `report_id.split("_")` as a list of strings. -/
def py_split (sep : Char) (s : String) : List String :=
  (splitOnChar sep s.data).map String.mk

/-- Python `str.lower()` (ASCII case mapping, which covers every character the
module lower-cases). -/
def py_lower (s : String) : String :=
  String.mk (s.data.map Char.toLower)

/-- Line 158: a walked directory qualifies when `"raw_data" in root`,
i.e. when its path contains `raw_data` as a substring. -/
def qualifies_raw_data (root : String) : Bool :=
  containsSub "raw_data".data root.data

/-- Line 160: the report identifier assigned to files found under
`root` is `os.path.basename(os.path.dirname(root))`. -/
def report_id_of (root : String) : String :=
  py_basename (py_dirname root)

/-- Follows the spec's words, for comparison with `qualifies_raw_data`:
a directory qualifies "if its path contains the literal segment
`raw_data`". -/
def spec_has_raw_data_segment (root : String) : Bool :=
  (py_split '/' root).contains "raw_data"

/-- Follows the spec's words, for comparison with `report_id_of`: "the
Report identifier is the name of that segment's parent directory" — the
path segment immediately before the first `raw_data` segment. -/
def spec_raw_data_parent (root : String) : Option String :=
  let parts := py_split '/' root
  match parts.findIdx? (fun s => s = "raw_data") with
  | some (i + 1) => parts.get? i
  | _ => none

/-- Line 173: candidate files are those with `file.endswith(".json")`. -/
def is_json_file (file : String) : Bool :=
  ".json".data.isSuffixOf file.data

/-! ### Index naming (lines 162-169) -/

/-- Lines 164-167: take the first two `_`-separated segments of the
report id rejoined with `_`; on an `IndexError` (fewer than two
segments) fall back to `datetime.now().strftime("%Y%m%d_%H%M%S")`,
modelled by the `now_fmt` parameter. -/
def derive_report_ts (report_id now_fmt : String) : String :=
  match py_split '_' report_id with
  | p0 :: p1 :: _ => p0 ++ "_" ++ p1
  | _ => now_fmt

/-- Line 169: `f"{index_prefix}{report_ts}".lower()`. -/
def index_name_for (idx_pre report_id now_fmt : String) : String :=
  py_lower (idx_pre ++ derive_report_ts report_id now_fmt)

/-! ### Action construction (lines 183-189) -/

/-- One element of `docs_to_index`: the `_index`/`_id`/`_source` action
dictionary handed to `helpers.bulk`. -/
structure EsAction where
  index : String
  id : Json
  source : List (String × Json)
deriving Repr

/-- Lines 184-188: `doc.pop("_id")` removes the id from the document and
the popped value becomes the action's write key (`KeyError` if the key
were absent). -/
def make_action (index_name : String) (doc : List (String × Json)) :
    Except PyErr EsAction :=
  match doc.lookup "_id" with
  | some v => .ok ⟨index_name, v, doc.eraseP (fun p => p.1 == "_id")⟩
  | none => .error (.keyError "_id")

/-- The per-file action loop of lines 183-189: actions for the document
list in order; on a raised exception the actions already appended to
`docs_to_index` are kept and the error is reported. -/
def buildActions (index_name : String) :
    List (List (String × Json)) → List EsAction × Option PyErr
  | [] => ([], none)
  | doc :: rest =>
      match make_action index_name doc with
      | .error e => ([], some e)
      | .ok a =>
          let (acts, err) := buildActions index_name rest
          (a :: acts, err)

/-- Lines 172-192: processing of one candidate file.  `content` models
`json.load` on the opened file (`.error` for unreadable or invalid
JSON); any exception inside the `try` block is caught and logged as
`Failed to process ...`, and the run continues. -/
def processFile (index_name filepath : String)
    (content : Except PyErr Json) (report_ts report_id now : String) :
    List EsAction × List LogEntry :=
  let infoLog : LogEntry := ⟨.info, "Processing " ++ filepath⟩
  let failLog : PyErr → LogEntry := fun e =>
    ⟨.error, "Failed to process " ++ filepath ++ ": " ++ e.text⟩
  match content with
  | .error e => ([], [infoLog, failLog e])
  | .ok raw =>
      match normalize_document raw filepath report_ts report_id now with
      | .error e => ([], [infoLog, failLog e])
      | .ok (docs, nlogs) =>
          match buildActions index_name docs with
          | (acts, some e) => (acts, [infoLog] ++ nlogs ++ [failLog e])
          | (acts, none) => (acts, [infoLog] ++ nlogs)

/-- The loop over a qualifying directory's files: every file is
processed; failures only add log lines and never stop the iteration. -/
def processFiles (index_name report_ts report_id now : String) :
    List (String × Except PyErr Json) → List EsAction × List LogEntry
  | [] => ([], [])
  | f :: fs =>
      let hd := processFile index_name f.1 f.2 report_ts report_id now
      let tl := processFiles index_name report_ts report_id now fs
      (hd.1 ++ tl.1, hd.2 ++ tl.2)

/-! ### `ensure_index_exists` (lines 94-149) -/

/-- Lines 103-141: the fixed field-mapping schema passed to
`es.indices.create`. -/
def index_mapping : Json :=
  .obj
    [("mappings", .obj
      [("properties", .obj
        [("timestamp", .obj [("type", .str "date")]),
         ("source_file", .obj [("type", .str "keyword")]),
         ("source_type", .obj [("type", .str "keyword")]),
         ("data_type", .obj [("type", .str "keyword")]),
         ("title", .obj [("type", .str "text"),
           ("fields", .obj [("keyword", .obj [("type", .str "keyword")])])]),
         ("body", .obj [("type", .str "text")]),
         ("url", .obj [("type", .str "keyword")]),
         ("uri", .obj [("type", .str "keyword")]),
         ("source", .obj [("type", .str "keyword")]),
         ("date", .obj [("type", .str "date")]),
         ("author", .obj [("type", .str "keyword")]),
         ("lang", .obj [("type", .str "keyword")]),
         ("entities", .obj
           [("properties", .obj
             [("person", .obj [("type", .str "keyword")]),
              ("organization", .obj [("type", .str "keyword")]),
              ("location", .obj [("type", .str "keyword")]),
              ("position", .obj [("type", .str "keyword")])])]),
         ("metadata", .obj [("type", .str "object"), ("enabled", .bool true)]),
         ("russian_contacts", .obj [("type", .str "object"), ("enabled", .bool true)]),
         ("criminal_allegations", .obj [("type", .str "object"), ("enabled", .bool true)]),
         ("intelligence_allegations", .obj [("type", .str "object"), ("enabled", .bool true)]),
         ("public_statements", .obj [("type", .str "text")]),
         ("sources", .obj [("type", .str "keyword")]),
         ("report_id", .obj [("type", .str "keyword")]),
         ("collection_date", .obj [("type", .str "date")]),
         ("raw_source", .obj [("type", .str "object"), ("enabled", .bool false)])])]),
     ("settings", .obj
       [("number_of_shards", .num 1),
        ("number_of_replicas", .num 1)])]

/-- Lines 94-149: `ensure_index_exists(es, index_name)`.  The external
store is modelled by two inputs: `index_exists` (the result of
`es.indices.exists`) and `create_err` (`some e` when `es.indices.create`
raises `e`, `none` when it succeeds).  The result is the returned
boolean, the create request issued to the store (if any, carrying the
fixed `index_mapping`), and the emitted log lines.  A creation failure
is caught and turned into a `false` return — it never propagates. -/
def ensure_index_exists (index_exists : Bool) (create_err : Option String)
    (index_name : String) :
    Bool × Option (String × Json) × List LogEntry :=
  if index_exists then
    (true, none, [⟨.info, "Index " ++ index_name ++ " already exists"⟩])
  else
    match create_err with
    | none =>
        (true, some (index_name, index_mapping),
         [⟨.info, "Created index " ++ index_name ++ " with mappings"⟩])
    | some e =>
        (false, some (index_name, index_mapping),
         [⟨.error, "Failed to create index " ++ index_name ++ ": " ++ e⟩])

/-- Lines 194-196: every accumulated index name is provisioned in turn;
the returned boolean of `ensure_index_exists` is not consulted, so a
failure never stops the loop. -/
def provision_indices (index_exists : String → Bool)
    (create_err : String → Option String) :
    List String → List (String × Bool) × List LogEntry
  | [] => ([], [])
  | n :: ns =>
      let r := ensure_index_exists (index_exists n) (create_err n) n
      let rest := provision_indices index_exists create_err ns
      ((n, r.1) :: rest.1, r.2.2 ++ rest.2)

/-! ### The bulk write and its failure reporting (lines 198-220) -/

/-- Modelled from the spec: `helpers.bulk` of the Elasticsearch client
library, an external collaborator (the spec's §6 `bulkWrite` contract
and §4.6).  Each submitted action is paired with its per-document
outcome at the store (`none` = written, `some errJson` = rejected with
that error object).  With `raise_on_error=False` the call never raises
on per-document failures: it returns the count of successfully written
documents and the list of failures, so every independently-writable
document is written.  With `raise_on_error=True` it would raise instead.
A transport-level failure is a raised exception, modelled separately at
the call site. -/
def helpers_bulk (raise_on_error : Bool)
    (outcomes : List (EsAction × Option Json)) :
    Except PyErr (Nat × List Json) :=
  if raise_on_error && outcomes.any (fun o => o.2.isSome) then
    .error (.typeError "BulkIndexError")
  else
    .ok ((outcomes.filter (fun o => o.2.isNone)).length,
         outcomes.filterMap (fun o => o.2))

/-- The f-string rendering of a looked-up JSON value (only strings and
scalars are ever rendered by the reporting code in practice). -/
def jsonText : Json → String
  | .str s => s
  | .num n => toString n
  | .bool true => "True"
  | .bool false => "False"
  | .null => "None"
  | v => dumps v

/-- Lines 207-212: one iteration of the error-reporting loop.  A failure
entry is only logged individually when its dict has an `index` key; the
id, type and reason are read with `unknown` defaults.  `i` is the
0-based `enumerate` counter. -/
def report_one_error (i : Nat) (err : Json) : Except PyErr (List LogEntry) := do
  let hasIdx ← pyContains "index" err
  if hasIdx then
    let idxval ← pySubscript err "index"
    let doc_id ← pyGet idxval "_id" (.str "unknown")
    let error_msg ← pyGet idxval "error" (.obj [])
    let error_type ← pyGet error_msg "type" (.str "unknown")
    let error_reason ← pyGet error_msg "reason" (.str "unknown")
    pure [⟨.error, "  Failed doc " ++ toString (i + 1) ++ " (ID: " ++
      jsonText doc_id ++ "): " ++ jsonText error_type ++ " - " ++
      jsonText error_reason⟩]
  else
    pure []

/-- The loop `for i, error in enumerate(errors[:5])`, with the lines
logged before a raised exception kept. -/
def report_errors_go (i : Nat) : List Json → List LogEntry × Option PyErr
  | [] => ([], none)
  | err :: rest =>
      match report_one_error i err with
      | .error e => ([], some e)
      | .ok ls =>
          let r := report_errors_go (i + 1) rest
          (ls ++ r.1, r.2)

/-- Lines 203-216: reporting of the `(success, errors)` pair returned by
`helpers.bulk`.  At most the first 5 failures are logged individually;
when more exist, the count of the remainder is logged; with no failures
a single success summary is logged.  An exception raised while
formatting a failure is caught by the surrounding `try` and reported as
`Bulk ingestion failed`. -/
def bulk_error_report (success : Nat) (errors : List Json) : List LogEntry :=
  if errors.isEmpty then
    [⟨.info, "Ingestion complete. Success: " ++ toString success ++ ", Failed: 0"⟩]
  else
    let head : LogEntry := ⟨.error, "Bulk ingestion completed with errors. Success: " ++
      toString success ++ ", Failed: " ++ toString errors.length⟩
    let r := report_errors_go 0 (errors.take 5)
    match r.2 with
    | some e =>
        head :: r.1 ++ [⟨.error, "Bulk ingestion failed: " ++ e.text⟩]
    | none =>
        head :: r.1 ++
          (if 5 < errors.length then
            [⟨.error, "  ... and " ++ toString (errors.length - 5) ++ " more errors"⟩]
          else [])

/-- Lines 198-220: the bulk-write stage.  `transport` is `some e` when
the submission itself cannot be made (a transport-level exception from
`helpers.bulk`), which yields the single fatal `Bulk ingestion failed`
line instead of per-document reporting. -/
def bulk_stage (transport : Option String)
    (outcomes : List (EsAction × Option Json)) (num_indices : Nat) :
    List LogEntry :=
  if outcomes.isEmpty then
    [⟨.info, "No documents found to ingest."⟩]
  else
    ⟨.info, "Ingesting " ++ toString outcomes.length ++ " documents into " ++
      toString num_indices ++ " index(es)..."⟩ ::
    match transport with
    | some e => [⟨.error, "Bulk ingestion failed: " ++ e⟩]
    | none =>
        match helpers_bulk false outcomes with
        | .error e => [⟨.error, "Bulk ingestion failed: " ++ e.text⟩]
        | .ok (success, errors) => bulk_error_report success errors

/-! ### The content identifier (line 88) -/

/-- Line 88: the id assigned to an item is
`generate_doc_id(json.dumps(item, sort_keys=True))`. -/
def identify (item : Json) : String :=
  generate_doc_id (dumps item)

/-! ### Helper lemmas -/

instance : IsTotal (String × Json) (fun a b => a.1 ≤ b.1) :=
  ⟨fun a b => le_total a.1 b.1⟩

instance : IsTrans (String × Json) (fun a b => a.1 ≤ b.1) :=
  ⟨fun _ _ _ h1 h2 => le_trans h1 h2⟩

instance : IsAntisymm (String × Json) (fun a b => a.1 < b.1) :=
  ⟨fun _ _ h1 h2 => absurd h1 (lt_asymm h2)⟩

/-- Sorting by key is insensitive to the initial entry order whenever the
keys are distinct (as they always are for a Python dict). -/
theorem sortPairs_eq_of_perm {l₁ l₂ : List (String × Json)}
    (hp : l₁.Perm l₂) (hnd : (l₁.map Prod.fst).Nodup) :
    sortPairs l₁ = sortPairs l₂ := by
  have hperm : (sortPairs l₁).Perm (sortPairs l₂) :=
    ((List.perm_insertionSort _ l₁).trans hp).trans
      (List.perm_insertionSort _ l₂).symm
  have hs₁ : (sortPairs l₁).Sorted (fun a b => a.1 ≤ b.1) :=
    List.sorted_insertionSort _ l₁
  have hs₂ : (sortPairs l₂).Sorted (fun a b => a.1 ≤ b.1) :=
    List.sorted_insertionSort _ l₂
  have hnd₁ : ((sortPairs l₁).map Prod.fst).Nodup :=
    (((List.perm_insertionSort _ l₁).map Prod.fst).nodup_iff).mpr hnd
  have hnd₂ : ((sortPairs l₂).map Prod.fst).Nodup :=
    ((hperm.map Prod.fst).nodup_iff).mp hnd₁
  have hlt₁ : (sortPairs l₁).Pairwise (fun a b => a.1 < b.1) :=
    (hs₁.and (List.pairwise_map.mp hnd₁)).imp
      (fun h => lt_of_le_of_ne h.1 h.2)
  have hlt₂ : (sortPairs l₂).Pairwise (fun a b => a.1 < b.1) :=
    (hs₂.and (List.pairwise_map.mp hnd₂)).imp
      (fun h => lt_of_le_of_ne h.1 h.2)
  exact List.eq_of_perm_of_sorted hperm hlt₁ hlt₂

/-- Unfolding of `dumps` on objects, with the `attach` scaffolding
removed. -/
theorem dumps_obj (kvs : List (String × Json)) :
    dumps (.obj kvs) =
      "\x7b" ++ String.intercalate ", "
          ((sortPairs kvs).map
            (fun p => encodeJsonString p.1 ++ ": " ++ dumps p.2)) ++
        "\x7d" := by
  rw [dumps]
  congr 3
  exact List.attach_map_coe (sortPairs kvs)
    (fun (p : String × Json) => encodeJsonString p.1 ++ ": " ++ dumps p.2)

/-- The canonical document produced for a mapping item, as a pure
function of its entries. -/
def docOf (now filename report_id : String) (kvs : List (String × Json)) :
    List (String × Json) :=
  mkDoc now filename (source_data_type kvs).1 (source_data_type kvs).2
    (dictGet kvs "title" (.str ""))
    (dictGet kvs "body" (dictGet kvs "content" (.str "")))
    (dictGet kvs "url" (dictGet kvs "link" (.str "")))
    (.obj kvs) report_id

/-- On a mapping item the loop body never raises and produces exactly
the canonical document `docOf`. -/
theorem processItem_obj (kvs : List (String × Json)) (f n r : String) :
    processItem (.obj kvs) f n r = .ok (docOf n f r kvs) := by
  simp only [processItem, pyContains, pyGet, docOf, source_data_type, hasKey,
    dictGet, bind, Except.bind, pure, Except.pure]
  by_cases h1 : kvs.any (fun p => p.1 == "source") <;>
    by_cases h2 : kvs.any (fun p => p.1 == "uri") <;>
      by_cases h3 : kvs.any (fun p => p.1 == "url") <;>
        simp [h1, h2, h3]

/-- A list of mapping items is processed elementwise into `docOf`s. -/
theorem mapM_processItem_objs (items : List (List (String × Json)))
    (f n r : String) :
    (items.map Json.obj).mapM (fun item => processItem item f n r) =
      .ok (items.map (docOf n f r)) := by
  rw [← List.mapM'_eq_mapM]
  induction items with
  | nil => rfl
  | cons kvs rest ih =>
      simp [List.mapM', processItem_obj, ih]
      rfl

/-- Applying `normalize_document` to a sequence of mapping items. -/
theorem normalize_arr_objs (items : List (List (String × Json)))
    (f ts r now : String) :
    normalize_document (.arr (items.map Json.obj)) f ts r now =
      .ok (items.map (docOf now f r), []) := by
  simp only [normalize_document, mapM_processItem_objs]
  rfl

/-- A key that `lookup` finds is present (`key in item` is true). -/
theorem hasKey_of_lookup {kvs : List (String × Json)} {k : String} {v : Json}
    (h : kvs.lookup k = some v) : hasKey k kvs = true := by
  induction kvs with
  | nil => simp [List.lookup] at h
  | cons q rest ih =>
      rw [List.lookup_cons] at h
      by_cases he : (k == q.1)
      · simp [hasKey, List.any_cons]
        left
        exact (beq_iff_eq.mp he).symm
      · simp only [he, Bool.false_eq_true, if_false] at h
        simp [hasKey, List.any_cons]
        right
        have := ih h
        simpa [hasKey] using this

/-- Binding an `Except` success reduces. -/
theorem bind_ok_eq {e a b : Type} (x : a) (f : a → Except e b) :
    (Except.ok x >>= f) = f x := rfl

/-- Binding an `Except` failure short-circuits. -/
theorem bind_error_eq {e a b : Type} (err : e) (f : a → Except e b) :
    ((Except.error err : Except e a) >>= f) = .error err := rfl

/-- Applying `normalize_document` to a mapping without an `articles` key: the
mapping itself is the single item. -/
theorem normalize_obj_single (kvs : List (String × Json)) (f ts r now : String)
    (h : hasKey "articles" kvs = false) :
    normalize_document (.obj kvs) f ts r now = .ok ([docOf now f r kvs], []) := by
  simp only [hasKey] at h
  simp only [normalize_document, ← List.mapM'_eq_mapM, List.mapM',
    processItem_obj, h, Bool.false_eq_true, if_false, pure_bind]
  rfl

/-- Applying `normalize_document` to a provider-wrapped list: a mapping whose
`articles` value is a mapping with a `results` key holding a sequence of
mapping items. -/
theorem normalize_obj_wrapped (kvs akvs : List (String × Json))
    (ritems : List (List (String × Json))) (f ts r now : String)
    (h1 : kvs.lookup "articles" = some (.obj akvs))
    (h2 : akvs.lookup "results" = some (.arr (ritems.map Json.obj))) :
    normalize_document (.obj kvs) f ts r now =
      .ok (ritems.map (docOf now f r), []) := by
  have hk1 : hasKey "articles" kvs = true := hasKey_of_lookup h1
  have hk2 : hasKey "results" akvs = true := hasKey_of_lookup h2
  simp only [hasKey] at hk1 hk2
  simp only [normalize_document, ← List.mapM'_eq_mapM, hk1, if_true,
    pySubscript, h1, pyContains, hk2, h2, pyIter, pure_bind, bind_ok_eq]
  rw [List.mapM'_eq_mapM, mapM_processItem_objs]
  rfl

/-! ### Claim theorems -/

/-- C1: for every JSON item, the content identifier equals the
hex-encoded SHA-256 hash of the item's canonical JSON serialization
(map keys sorted, UTF-8 encoded); two items that are equal as maps —
object entry lists that are permutations of one another, with distinct
keys — are assigned the same id; and the function is pure, hence
deterministic across calls. -/
theorem C1_identify_content_hash :
    (∀ item : Json, identify item = sha256Hex (utf8Encode (dumps item))) ∧
    (∀ kvs1 kvs2 : List (String × Json), kvs1.Perm kvs2 →
      (kvs1.map Prod.fst).Nodup →
      identify (.obj kvs1) = identify (.obj kvs2)) ∧
    (∀ item : Json, identify item = identify item) := by
  refine ⟨fun item => rfl, ?_, fun item => rfl⟩
  intro kvs1 kvs2 hp hnd
  unfold identify generate_doc_id
  rw [dumps_obj, dumps_obj, sortPairs_eq_of_perm hp hnd]

/-- Witness for C1: two concrete objects differing only in entry order
receive the same id. -/
theorem C1_identify_content_hash_witness :
    identify (.obj [("b", Json.num 2), ("a", Json.num 1)]) =
      identify (.obj [("a", Json.num 1), ("b", Json.num 2)]) :=
  C1_identify_content_hash.2.1 _ _ (List.Perm.swap _ _ _) (by decide)

/-- C4: source/data type classification is first-match-wins: both
`source` and `uri` present gives `(news, article)`; otherwise `url`
present gives `(web, page)`; otherwise `(unknown, unknown)` — and the
produced document carries exactly that classification. -/
theorem C4_source_type_first_match :
    (∀ kvs, hasKey "source" kvs = true → hasKey "uri" kvs = true →
      source_data_type kvs = ("news", "article")) ∧
    (∀ kvs, ¬(hasKey "source" kvs = true ∧ hasKey "uri" kvs = true) →
      hasKey "url" kvs = true →
      source_data_type kvs = ("web", "page")) ∧
    (∀ kvs, ¬(hasKey "source" kvs = true ∧ hasKey "uri" kvs = true) →
      hasKey "url" kvs = false →
      source_data_type kvs = ("unknown", "unknown")) ∧
    (∀ kvs f n r,
      (processItem (.obj kvs) f n r).map
        (fun d => (d.lookup "source_type", d.lookup "data_type")) =
      .ok (some (.str (source_data_type kvs).1),
           some (.str (source_data_type kvs).2))) := by
  refine ⟨?_, ?_, ?_, ?_⟩
  · intro kvs h1 h2
    simp [source_data_type, h1, h2]
  · intro kvs h1 h2
    rcases Decidable.em (hasKey "source" kvs = true ∧ hasKey "uri" kvs = true) with h | h
    · exact absurd h h1
    · simp only [source_data_type, h2]
      rcases Bool.eq_false_or_eq_true (hasKey "source" kvs) with hs | hs <;>
        rcases Bool.eq_false_or_eq_true (hasKey "uri" kvs) with hu | hu <;>
          simp [hs, hu] <;> exact absurd ⟨hs, hu⟩ h1
  · intro kvs h1 h2
    simp only [source_data_type, h2]
    rcases Bool.eq_false_or_eq_true (hasKey "source" kvs) with hs | hs <;>
      rcases Bool.eq_false_or_eq_true (hasKey "uri" kvs) with hu | hu <;>
        simp [hs, hu] <;> exact absurd ⟨hs, hu⟩ h1
  · intro kvs f n r
    rw [processItem_obj]
    rfl

/-- Witness for C4 at the spec's three example items. -/
theorem C4_source_type_first_match_witness :
    source_data_type [("source", Json.str "x"), ("uri", Json.str "y")] =
      ("news", "article") :=
  C4_source_type_first_match.1 _ (by decide) (by decide)

/-- C5: when the report id splits on `_` into at least two segments the
index name is the prefix concatenated with the first two segments
rejoined by `_`, all lower-cased; with fewer than two segments it falls
back to the prefix plus the current wall-clock time formatted
`YYYYMMDD_HHMMSS` (the `now_fmt` parameter), lower-cased. -/
theorem C5_index_naming :
    (∀ pre rid now_fmt p0 p1 rest, py_split '_' rid = p0 :: p1 :: rest →
      index_name_for pre rid now_fmt = py_lower (pre ++ (p0 ++ "_" ++ p1))) ∧
    (∀ pre rid now_fmt, (py_split '_' rid).length < 2 →
      index_name_for pre rid now_fmt = py_lower (pre ++ now_fmt)) ∧
    index_name_for "osint_" "20260204_110300_berlin_ops" "x" =
      "osint_20260204_110300" := by
  refine ⟨?_, ?_, by rfl⟩
  · intro pre rid now_fmt p0 p1 rest h
    unfold index_name_for derive_report_ts
    rw [h]
  · intro pre rid now_fmt h
    unfold index_name_for derive_report_ts
    cases hm : py_split '_' rid with
    | nil => rfl
    | cons p0 rest =>
        cases rest with
        | nil => rfl
        | cons p1 rest2 =>
            rw [hm] at h
            simp [List.length_cons] at h
            omega

/-- Witness for C5 at the spec's example id and a fallback id. -/
theorem C5_index_naming_witness :
    index_name_for "osint_" "20260204_110300_berlin_ops" "x" =
      py_lower ("osint_" ++ ("20260204" ++ "_" ++ "110300")) ∧
    index_name_for "osint_" "noUnderscoreHere" "20260204_110300" =
      py_lower ("osint_" ++ "20260204_110300") :=
  ⟨C5_index_naming.1 "osint_" _ "x" "20260204" "110300" ["berlin", "ops"] (by rfl),
   C5_index_naming.2.1 "osint_" "noUnderscoreHere" "20260204_110300" (by decide)⟩

/-- C8: `ensure_index_exists` returns success without issuing a create
when the index already exists; a failed creation is caught and logged
and `false` is returned instead of the exception propagating; and the
provisioning loop still visits every remaining index. -/
theorem C8_ensure_index :
    (∀ name cerr, ensure_index_exists true cerr name =
      (true, none, [⟨.info, "Index " ++ name ++ " already exists"⟩])) ∧
    (∀ name e, ensure_index_exists false (some e) name =
      (false, some (name, index_mapping),
       [⟨.error, "Failed to create index " ++ name ++ ": " ++ e⟩])) ∧
    (∀ existsF cerrF names,
      (provision_indices existsF cerrF names).1.map Prod.fst = names) := by
  refine ⟨fun name cerr => rfl, fun name e => rfl, ?_⟩
  intro existsF cerrF names
  induction names with
  | nil => rfl
  | cons n ns ih => simp [provision_indices, ih]

/-- C2 counterexample: on `["a"]` — a sequence whose element is not a
mapping — `normalize_document` raises an `AttributeError` (from
`item.get`) instead of returning a document sequence, so it is not total
on arbitrary JSON values. -/
theorem C2_normalize_total_cx :
    normalize_document (.arr [.str "a"]) "file.json" "ts" "rep" "now" =
      .error (.attributeError "object has no attribute get") ∧
    (normalize_document (.arr [.str "a"]) "file.json" "ts" "rep" "now").isOk =
      false :=
  ⟨rfl, rfl⟩

/-- C2 (amended): `normalize_document` never mutates its input (it is a
pure projection in this embedding, and each produced document retains
the item verbatim under `raw_source`); it returns documents without
raising for sequences of mapping items and for plain mappings, and it
returns zero documents with a single warning for unrecognized top-level
shapes; but it is not total: an item that is not a mapping, or an
`articles` value that is not a container, raises. -/
theorem C2_normalize_totality :
    (∀ (items : List (List (String × Json))) (f ts r now : String),
      normalize_document (.arr (items.map Json.obj)) f ts r now =
        .ok (items.map (docOf now f r), [])) ∧
    (∀ kvs f ts r now, hasKey "articles" kvs = false →
      normalize_document (.obj kvs) f ts r now =
        .ok ([docOf now f r kvs], [])) ∧
    (∀ f ts r now, normalize_document .null f ts r now =
      .ok ([], [⟨.warning, "Unknown JSON structure in " ++ f⟩])) ∧
    (∀ b f ts r now, normalize_document (.bool b) f ts r now =
      .ok ([], [⟨.warning, "Unknown JSON structure in " ++ f⟩])) ∧
    (∀ k f ts r now, normalize_document (.num k) f ts r now =
      .ok ([], [⟨.warning, "Unknown JSON structure in " ++ f⟩])) ∧
    (∀ s f ts r now, normalize_document (.str s) f ts r now =
      .ok ([], [⟨.warning, "Unknown JSON structure in " ++ f⟩])) :=
  ⟨normalize_arr_objs, normalize_obj_single,
   fun _ _ _ _ => rfl, fun _ _ _ _ _ => rfl,
   fun _ _ _ _ _ => rfl, fun _ _ _ _ _ => rfl⟩

/-- Witness for C2 at a concrete mapping without an `articles` key. -/
theorem C2_normalize_totality_witness :
    normalize_document (.obj [("title", Json.str "t")]) "f.json" "ts" "rep" "now" =
      .ok ([docOf "now" "f.json" "rep" [("title", Json.str "t")]], []) :=
  C2_normalize_totality.2.1 [("title", Json.str "t")] "f.json" "ts" "rep" "now"
    (by decide)

/-- C3 counterexample: `{"articles": 5}` is a mapping whose `articles`
value contains no `results` key, so by the claimed detection order it
would be treated as a single item and produce one document; the code
instead raises a `TypeError` evaluating `"results" in raw_doc["articles"]`. -/
theorem C3_shape_order_cx :
    normalize_document (.obj [("articles", Json.num 5)]) "file.json" "ts" "rep" "now" =
      .error (.typeError "argument of type is not iterable") ∧
    (Except.error (PyErr.typeError "argument of type is not iterable") :
        Except PyErr (List (List (String × Json)) × List LogEntry)) ≠
      .ok ([docOf "now" "file.json" "rep" [("articles", Json.num 5)]], []) :=
  ⟨rfl, by simp⟩

/-- C3 (amended): shape dispatch in order — a sequence is treated
elementwise; a mapping whose `articles` value is a mapping containing a
`results` key yields the inner `articles.results` sequence as the items;
a mapping without an `articles` key is a single item; any other
top-level value yields zero documents and exactly one warning naming the
file, and the per-file loop continues with the remaining files.
However, when the `articles` value is present but is not a container,
the containment test raises a `TypeError` instead of reaching the
single-item branch. -/
theorem C3_shape_detection :
    (∀ (items : List (List (String × Json))) (f ts r now : String),
      normalize_document (.arr (items.map Json.obj)) f ts r now =
        .ok (items.map (docOf now f r), [])) ∧
    (∀ (kvs akvs : List (String × Json))
        (ritems : List (List (String × Json))) (f ts r now : String),
      kvs.lookup "articles" = some (.obj akvs) →
      akvs.lookup "results" = some (.arr (ritems.map Json.obj)) →
      normalize_document (.obj kvs) f ts r now =
        .ok (ritems.map (docOf now f r), [])) ∧
    (∀ kvs f ts r now, hasKey "articles" kvs = false →
      normalize_document (.obj kvs) f ts r now =
        .ok ([docOf now f r kvs], [])) ∧
    (∀ s f ts r now, normalize_document (.str s) f ts r now =
      .ok ([], [⟨.warning, "Unknown JSON structure in " ++ f⟩])) ∧
    (∀ k f ts r now, normalize_document (.num k) f ts r now =
      .ok ([], [⟨.warning, "Unknown JSON structure in " ++ f⟩])) ∧
    (∀ kvs n f ts r now, kvs.lookup "articles" = some (.num n) →
      normalize_document (.obj kvs) f ts r now =
        .error (.typeError "argument of type is not iterable")) ∧
    (∀ idx ts rid now p s rest,
      (processFiles idx ts rid now ((p, .ok (.str s)) :: rest)).1 =
        (processFiles idx ts rid now rest).1) := by
  refine ⟨normalize_arr_objs, normalize_obj_wrapped, normalize_obj_single,
    fun _ _ _ _ _ => rfl, fun _ _ _ _ _ => rfl, ?_, ?_⟩
  · intro kvs n f ts r now h
    have hk : hasKey "articles" kvs = true := hasKey_of_lookup h
    simp only [hasKey] at hk
    simp only [normalize_document, hk, if_true, pySubscript, h, pyContains,
      bind_ok_eq, bind_error_eq]
  · intro idx ts rid now p s rest
    simp [processFiles, processFile, normalize_document, buildActions,
      pure, Except.pure]

/-- Witness for C3 at a concrete provider-wrapped document. -/
theorem C3_shape_detection_witness :
    normalize_document
        (.obj [("articles", .obj [("results",
          .arr [Json.obj [("title", Json.str "t")]])])])
        "f.json" "ts" "rep" "now" =
      .ok ([docOf "now" "f.json" "rep" [("title", Json.str "t")]], []) :=
  C3_shape_detection.2.1 _ _ [[("title", Json.str "t")]] "f.json" "ts" "rep" "now"
    rfl rfl

/-- Looking up the type fields of a produced document recovers the
classification of its item. -/
theorem docOf_lookup_types (kvs : List (String × Json)) (n f r : String) :
    ((docOf n f r kvs).lookup "source_type", (docOf n f r kvs).lookup "data_type") =
      (some (.str (source_data_type kvs).1), some (.str (source_data_type kvs).2)) :=
  rfl

/-- C10 counterexample: an item carrying `source`, `uri` and `url`
together maps the key `url` (to `null`), yet detection yields
`(news, article)`, not `(web, page)` — the first rule takes priority. -/
theorem C10_url_presence_cx :
    (processItem
        (.obj [("source", Json.str "x"), ("uri", Json.str "y"), ("url", Json.null)])
        "f" "n" "r").map
      (fun d => (d.lookup "source_type", d.lookup "data_type")) =
      .ok (some (Json.str "news"), some (Json.str "article")) ∧
    Json.str "news" ≠ Json.str "web" :=
  ⟨rfl, by simp⟩

/-- C10 (amended): extraction and detection are driven by key presence,
not value truthiness — an item mapping `url` to any value (`null`
included) is detected as `(web, page)` provided it does not also carry
both `source` and `uri` (in which case the first rule yields
`(news, article)`); and a `null` stored under `title`, `body` or `url`
is carried into the document verbatim instead of falling through to the
`content`/`link` fallback or the empty string. -/
theorem C10_key_presence :
    (∀ kvs, hasKey "url" kvs = true →
      ¬(hasKey "source" kvs = true ∧ hasKey "uri" kvs = true) →
      source_data_type kvs = ("web", "page")) ∧
    (∀ kvs f n r, kvs.lookup "url" = some .null →
      ¬(hasKey "source" kvs = true ∧ hasKey "uri" kvs = true) →
      (processItem (.obj kvs) f n r).map
        (fun d => (d.lookup "source_type", d.lookup "data_type")) =
        .ok (some (.str "web"), some (.str "page"))) ∧
    (∀ kvs f n r, kvs.lookup "title" = some .null →
      (processItem (.obj kvs) f n r).map (fun d => d.lookup "title") =
        .ok (some .null)) ∧
    (∀ kvs f n r, kvs.lookup "body" = some .null →
      (processItem (.obj kvs) f n r).map (fun d => d.lookup "body") =
        .ok (some .null)) ∧
    (∀ kvs f n r, kvs.lookup "url" = some .null →
      (processItem (.obj kvs) f n r).map (fun d => d.lookup "url") =
        .ok (some .null)) := by
  have hweb : ∀ kvs, hasKey "url" kvs = true →
      ¬(hasKey "source" kvs = true ∧ hasKey "uri" kvs = true) →
      source_data_type kvs = ("web", "page") :=
    fun kvs h1 h2 => C4_source_type_first_match.2.1 kvs h2 h1
  refine ⟨hweb, ?_, ?_, ?_, ?_⟩
  · intro kvs f n r hurl hns
    rw [processItem_obj]
    have := hweb kvs (hasKey_of_lookup hurl) hns
    show Except.ok ((docOf n f r kvs).lookup "source_type",
      (docOf n f r kvs).lookup "data_type") = _
    rw [docOf_lookup_types, this]
  · intro kvs f n r h
    rw [processItem_obj]
    show Except.ok ((docOf n f r kvs).lookup "title") = _
    have : (docOf n f r kvs).lookup "title" =
        some (dictGet kvs "title" (.str "")) := rfl
    rw [this]
    simp [dictGet, h]
  · intro kvs f n r h
    rw [processItem_obj]
    show Except.ok ((docOf n f r kvs).lookup "body") = _
    have : (docOf n f r kvs).lookup "body" =
        some (dictGet kvs "body" (dictGet kvs "content" (.str ""))) := rfl
    rw [this]
    simp [dictGet, h]
  · intro kvs f n r h
    rw [processItem_obj]
    show Except.ok ((docOf n f r kvs).lookup "url") = _
    have : (docOf n f r kvs).lookup "url" =
        some (dictGet kvs "url" (dictGet kvs "link" (.str ""))) := rfl
    rw [this]
    simp [dictGet, h]

/-- Witness for C10 at `{"url": null, "body": null, "content": "c"}`. -/
theorem C10_key_presence_witness :
    (processItem (.obj [("url", Json.null), ("body", Json.null),
        ("content", Json.str "c")]) "f" "n" "r").map
      (fun d => (d.lookup "source_type", d.lookup "data_type")) =
      .ok (some (.str "web"), some (.str "page")) :=
  C10_key_presence.2.1 _ "f" "n" "r" rfl (by decide)

/-- A string item always raises on `item.get` after detection. -/
theorem processItem_str (s f n r : String) :
    processItem (.str s) f n r =
      .error (.attributeError "object has no attribute get") := by
  by_cases h1 : containsSub "source".data s.data <;>
    by_cases h2 : containsSub "uri".data s.data <;>
      by_cases h3 : containsSub "url".data s.data <;>
        simp [processItem, pyContains, pyGet, h1, h2, h3, bind_ok_eq,
          pure_bind, bind_error_eq]

/-- A list item always raises on `item.get` after detection. -/
theorem processItem_arr (xs : List Json) (f n r : String) :
    processItem (.arr xs) f n r =
      .error (.attributeError "object has no attribute get") := by
  by_cases h1 : xs.any (fun x => match x with | Json.str t => t == "source" | _ => false) <;>
    by_cases h2 : xs.any (fun x => match x with | Json.str t => t == "uri" | _ => false) <;>
      by_cases h3 : xs.any (fun x => match x with | Json.str t => t == "url" | _ => false) <;>
        simp [processItem, pyContains, pyGet, h1, h2, h3, bind_ok_eq,
          pure_bind, bind_error_eq]

/-- The nine field names of every stored document body, in order. -/
def stored_field_names : List String :=
  ["timestamp", "source_file", "source_type", "data_type", "title",
   "body", "url", "raw_source", "report_id"]

/-- C9: every document that reaches the bulk write carries exactly the
nine canonical fields in its body; `doc.pop("_id")` removes the content
hash from the body, which instead becomes the action's external write
key, so the stored body never contains an id field. -/
theorem C9_stored_fields (item : Json) (f n r idx : String)
    (doc : List (String × Json)) (act : EsAction)
    (h1 : processItem item f n r = .ok doc)
    (h2 : make_action idx doc = .ok act) :
    act.source.map Prod.fst = stored_field_names ∧
    "_id" ∉ act.source.map Prod.fst ∧
    act.id = .str (generate_doc_id (dumps item)) := by
  cases item with
  | obj kvs =>
      rw [processItem_obj] at h1
      injection h1 with h1
      subst h1
      rw [show make_action idx (docOf n f r kvs) =
          .ok ⟨idx, .str (generate_doc_id (dumps (.obj kvs))),
            (docOf n f r kvs).eraseP (fun p => p.1 == "_id")⟩ from rfl] at h2
      injection h2 with h2
      subst h2
      refine ⟨rfl, ?_, rfl⟩
      intro hmem
      rw [show ((⟨idx, .str (generate_doc_id (dumps (.obj kvs))),
          (docOf n f r kvs).eraseP (fun p => p.1 == "_id")⟩ :
            EsAction)).source.map Prod.fst = stored_field_names from rfl] at hmem
      exact absurd hmem (by decide)
  | null => exact Except.noConfusion ((rfl :
      processItem Json.null f n r = .error
        (.typeError "argument of type is not iterable")).symm.trans h1)
  | bool b =>
      cases b with
      | false => exact Except.noConfusion ((rfl :
          processItem (Json.bool false) f n r = .error
            (.typeError "argument of type is not iterable")).symm.trans h1)
      | true => exact Except.noConfusion ((rfl :
          processItem (Json.bool true) f n r = .error
            (.typeError "argument of type is not iterable")).symm.trans h1)
  | num k => exact Except.noConfusion ((rfl :
      processItem (Json.num k) f n r = .error
        (.typeError "argument of type is not iterable")).symm.trans h1)
  | str s =>
      rw [processItem_str] at h1
      exact Except.noConfusion h1
  | arr xs =>
      rw [processItem_arr] at h1
      exact Except.noConfusion h1

/-- Witness for C9 at the concrete item `{"title": "t"}`. -/
theorem C9_stored_fields_witness :
    (EsAction.mk "idx"
        (Json.str (generate_doc_id (dumps (Json.obj [("title", Json.str "t")]))))
        ((docOf "now" "f.json" "rep" [("title", Json.str "t")]).eraseP
          (fun p => p.1 == "_id"))).source.map Prod.fst = stored_field_names ∧
    "_id" ∉ (EsAction.mk "idx"
        (Json.str (generate_doc_id (dumps (Json.obj [("title", Json.str "t")]))))
        ((docOf "now" "f.json" "rep" [("title", Json.str "t")]).eraseP
          (fun p => p.1 == "_id"))).source.map Prod.fst ∧
    (EsAction.mk "idx"
        (Json.str (generate_doc_id (dumps (Json.obj [("title", Json.str "t")]))))
        ((docOf "now" "f.json" "rep" [("title", Json.str "t")]).eraseP
          (fun p => p.1 == "_id"))).id =
      .str (generate_doc_id (dumps (Json.obj [("title", Json.str "t")]))) :=
  C9_stored_fields (.obj [("title", Json.str "t")]) "f.json" "now" "rep" "idx"
    (docOf "now" "f.json" "rep" [("title", Json.str "t")]) _ (processItem_obj _ _ _ _) rfl

/-- A single reporting-loop iteration emits at most one log line. -/
theorem report_one_error_len (i : Nat) (err : Json) (ls : List LogEntry)
    (h : report_one_error i err = .ok ls) : ls.length ≤ 1 := by
  unfold report_one_error at h
  cases hc : pyContains "index" err with
  | error e =>
      rw [hc, bind_error_eq] at h
      exact Except.noConfusion h
  | ok b =>
      rw [hc, bind_ok_eq] at h
      cases b with
      | false =>
          simp only [Bool.false_eq_true, if_false] at h
          injection h with h
          subst h
          simp
      | true =>
          simp only [if_true] at h
          cases hs : pySubscript err "index" with
          | error e =>
              rw [hs, bind_error_eq] at h
              exact Except.noConfusion h
          | ok v =>
              rw [hs, bind_ok_eq] at h
              cases hg1 : pyGet v "_id" (.str "unknown") with
              | error e =>
                  rw [hg1, bind_error_eq] at h
                  exact Except.noConfusion h
              | ok doc_id =>
                  rw [hg1, bind_ok_eq] at h
                  cases hg2 : pyGet v "error" (.obj []) with
                  | error e =>
                      rw [hg2, bind_error_eq] at h
                      exact Except.noConfusion h
                  | ok emsg =>
                      rw [hg2, bind_ok_eq] at h
                      cases hg3 : pyGet emsg "type" (.str "unknown") with
                      | error e =>
                          rw [hg3, bind_error_eq] at h
                          exact Except.noConfusion h
                      | ok et =>
                          rw [hg3, bind_ok_eq] at h
                          cases hg4 : pyGet emsg "reason" (.str "unknown") with
                          | error e =>
                              rw [hg4, bind_error_eq] at h
                              exact Except.noConfusion h
                          | ok er =>
                              rw [hg4, bind_ok_eq] at h
                              injection h with h
                              subst h
                              simp

/-- The reporting loop emits at most one line per examined failure. -/
theorem report_errors_go_len (l : List Json) : ∀ i,
    (report_errors_go i l).1.length ≤ l.length := by
  induction l with
  | nil => intro i; simp [report_errors_go]
  | cons err rest ih =>
      intro i
      unfold report_errors_go
      cases hr : report_one_error i err with
      | error e => simp
      | ok ls =>
          have h1 := report_one_error_len i err ls hr
          have h2 := ih (i + 1)
          simp only [List.length_cons, List.length_append]
          omega

/-- C7: with `raise_on_error=False` the bulk call never aborts on
per-document failures — it returns the count of independently written
documents and the failures; each individually-reported failure line
carries the offending id, its type and its reason; at most the first 5
failures are reported individually; when more than 5 exist the count of
the remainder is reported as well; and a transport-level failure of the
submission is reported as one single fatal line. -/
theorem C7_bulk_failures :
    (∀ outcomes : List (EsAction × Option Json),
      helpers_bulk false outcomes =
        .ok ((outcomes.filter (fun o => o.2.isNone)).length,
             outcomes.filterMap (fun o => o.2))) ∧
    (∀ (i : Nat) (doc_id ty rsn : String),
      report_one_error i (.obj [("index", .obj [("_id", .str doc_id),
          ("error", .obj [("type", .str ty), ("reason", .str rsn)])])]) =
        .ok [⟨.error, "  Failed doc " ++ toString (i + 1) ++ " (ID: " ++
          doc_id ++ "): " ++ ty ++ " - " ++ rsn⟩]) ∧
    (∀ errors : List Json,
      (report_errors_go 0 (errors.take 5)).1.length ≤ 5) ∧
    (∀ (success : Nat) (errors : List Json), 5 < errors.length →
      (report_errors_go 0 (errors.take 5)).2 = none →
      (⟨.error, "  ... and " ++ toString (errors.length - 5) ++
          " more errors"⟩ : LogEntry) ∈ bulk_error_report success errors) ∧
    (∀ (e : String) (outcomes : List (EsAction × Option Json)) (k : Nat),
      outcomes ≠ [] →
      bulk_stage (some e) outcomes k =
        [⟨.info, "Ingesting " ++ toString outcomes.length ++
          " documents into " ++ toString k ++ " index(es)..."⟩,
         ⟨.error, "Bulk ingestion failed: " ++ e⟩]) := by
  refine ⟨fun outcomes => rfl, fun i doc_id ty rsn => rfl, ?_, ?_, ?_⟩
  · intro errors
    calc (report_errors_go 0 (errors.take 5)).1.length
        ≤ (errors.take 5).length := report_errors_go_len _ 0
      _ ≤ 5 := by simp [List.length_take]
  · intro success errors h5 hnone
    have hne : errors.isEmpty = false := by
      cases errors with
      | nil => simp at h5
      | cons a l => rfl
    unfold bulk_error_report
    rw [hne]
    simp only [Bool.false_eq_true, if_false, hnone]
    rw [if_pos h5]
    simp
  · intro e outcomes k hne
    unfold bulk_stage
    rw [if_neg (by simpa [List.isEmpty_iff] using hne)]

/-- Witness for C7: the remainder line for seven failures, and the
single fatal line on a transport failure. -/
theorem C7_bulk_failures_witness :
    ((⟨.error, "  ... and " ++ toString (7 - 5) ++ " more errors"⟩ : LogEntry) ∈
      bulk_error_report 3 (List.replicate 7 (Json.obj []))) ∧
    bulk_stage (some "boom")
        [(⟨"i", Json.str "d", []⟩, none)] 1 =
      [⟨.info, "Ingesting " ++ toString (1 : Nat) ++ " documents into " ++
        toString (1 : Nat) ++ " index(es)..."⟩,
       ⟨.error, "Bulk ingestion failed: " ++ "boom"⟩] :=
  ⟨C7_bulk_failures.2.2.2.1 3 (List.replicate 7 (Json.obj []))
      (by simp) (by rfl),
   C7_bulk_failures.2.2.2.2 "boom" [(⟨"i", Json.str "d", []⟩, none)] 1
      (by simp)⟩

/-- The function `List.findIdx?` skips over a prefix with no match, shifting the index. -/
theorem findIdx?_append_no_match {p : Char → Bool} (xs ys : List Char)
    (h : ∀ x ∈ xs, p x = false) :
    (xs ++ ys).findIdx? p = (ys.findIdx? p).map (· + xs.length) := by
  induction xs with
  | nil => simp
  | cons a l ih =>
      have ha : p a = false := h a (List.mem_cons_self a l)
      have hrest : ∀ x ∈ l, p x = false :=
        fun x hx => h x (List.mem_cons_of_mem a hx)
      simp only [List.cons_append, List.findIdx?_cons, ha, Bool.false_eq_true,
        if_false, List.findIdx?_succ, ih hrest, Option.map_map]
      congr 1

/-- A string that ends with the needle contains it. -/
theorem containsSub_append_self (needle xs : List Char) :
    containsSub needle (xs ++ needle) = true := by
  induction xs with
  | nil =>
      rw [List.nil_append]
      cases needle with
      | nil => rfl
      | cons c rest =>
          unfold containsSub
          simp [ List.isPrefixOf_iff_prefix]
  | cons a l ih =>
      rw [List.cons_append]
      unfold containsSub
      simp [ih]

/-- Containment is preserved when the haystack is extended on the right
(so every subdirectory of a qualifying directory also qualifies). -/
theorem containsSub_append_right (needle xs ys : List Char)
    (h : containsSub needle xs = true) :
    containsSub needle (xs ++ ys) = true := by
  induction xs with
  | nil =>
      have hn : needle = [] := by
        cases needle with
        | nil => rfl
        | cons c rest => simp [containsSub, List.isEmpty] at h
      subst hn
      cases ys with
      | nil => rfl
      | cons b r =>
          unfold containsSub
          simp [List.isPrefixOf]
  | cons a l ih =>
      rw [List.cons_append]
      unfold containsSub
      unfold containsSub at h
      rcases Bool.or_eq_true_iff.mp h with hp | hc
      · have h1 : needle <+: a :: l := List.isPrefixOf_iff_prefix.mp hp
        have h2 : needle <+: a :: (l ++ ys) := by
          have := h1.trans (List.prefix_append (a :: l) ys)
          simpa using this
        simp [ List.isPrefixOf_iff_prefix.mpr h2]
      · simp [ih hc]

/-- The data of `b ++ "/" ++ seg` in grouped form. -/
theorem data_slash_append (b seg : String) :
    (b ++ "/" ++ seg).data = (b.data ++ ['/']) ++ seg.data := by
  simp [String.data_append]

/-- The last-slash index of a path whose final segment is slash-free. -/
theorem lastSlashIdx_append_seg (b : List Char) (seg : List Char)
    (hsegns : ∀ c ∈ seg, c ≠ '/') :
    lastSlashIdx ((b ++ ['/']) ++ seg) = b.length + 1 := by
  unfold lastSlashIdx
  have hrev : (((b ++ ['/']) ++ seg).reverse) = seg.reverse ++ '/' :: b.reverse := by
    simp
  rw [hrev]
  have hno : ∀ x ∈ seg.reverse, (fun c => decide (c = '/')) x = false := by
    intro x hx
    simp only [decide_eq_false_iff_not]
    exact hsegns x (List.mem_reverse.mp hx)
  rw [findIdx?_append_no_match _ _ hno]
  simp only [List.findIdx?_cons, decide_True, if_true, Option.map_some',
    List.length_append, List.length_reverse, List.length_cons, List.length_nil]
  omega

/-- Computing `os.path.basename` of a path whose final segment is slash-free. -/
theorem py_basename_append_seg (b seg : String)
    (hsegns : ∀ c ∈ seg.data, c ≠ '/') :
    py_basename (b ++ "/" ++ seg) = seg := by
  unfold py_basename
  rw [data_slash_append, lastSlashIdx_append_seg _ _ hsegns]
  rw [List.drop_left' (by simp)]

/-- Computing `os.path.dirname` of a path whose final segment is slash-free and
whose head does not end in a slash. -/
theorem py_dirname_append_seg (b seg : String)
    (hsegns : ∀ c ∈ seg.data, c ≠ '/')
    (hb : b.data ≠ []) (hbl : ∀ c, b.data.getLast? = some c → c ≠ '/') :
    py_dirname (b ++ "/" ++ seg) = b := by
  unfold py_dirname
  rw [data_slash_append, lastSlashIdx_append_seg _ _ hsegns]
  rw [List.take_left' (by simp)]
  obtain ⟨c0, rest, hrev⟩ : ∃ c0 rest, b.data.reverse = c0 :: rest := by
    cases hr : b.data.reverse with
    | nil => exact absurd (by simpa using congrArg List.reverse hr) hb
    | cons c0 rest => exact ⟨c0, rest, rfl⟩
  have hc0 : b.data.getLast? = some c0 := by
    rw [← List.head?_reverse, hrev]
    rfl
  have hc0ne : c0 ≠ '/' := hbl c0 hc0
  have hmem : c0 ∈ b.data := by
    have : c0 ∈ b.data.reverse := by rw [hrev]; exact List.mem_cons_self _ _
    exact List.mem_reverse.mp this
  rw [if_pos ?side]
  case side =>
    constructor
    · simp
    · simp only [List.any_append, Bool.or_eq_true, List.any_eq_true]
      exact Or.inl ⟨c0, hmem, by simpa using hc0ne⟩
  have hrev2 : (b.data ++ ['/']).reverse = '/' :: b.data.reverse := by simp
  rw [hrev2, List.dropWhile_cons]
  simp only [decide_True, if_true]
  rw [hrev, List.dropWhile_cons]
  simp only [decide_eq_true_eq, hc0ne, if_false]
  rw [← hrev]
  simp

/-- For the raw-data root itself — a path of the shape
`<base>/<report>/raw_data` with a slash-free, nonempty report segment —
the extracted report identifier is the report directory's name. -/
theorem report_id_of_raw_root (b d : String)
    (hd : d.data ≠ []) (hdns : ∀ c ∈ d.data, c ≠ '/') (hb : b.data ≠ []) :
    report_id_of (b ++ "/" ++ d ++ "/" ++ "raw_data") = d := by
  obtain ⟨c0, rest, hrev⟩ : ∃ c0 rest, d.data.reverse = c0 :: rest := by
    cases hr : d.data.reverse with
    | nil => exact absurd (by simpa using congrArg List.reverse hr) hd
    | cons c0 rest => exact ⟨c0, rest, rfl⟩
  have hc0mem : c0 ∈ d.data := by
    have : c0 ∈ d.data.reverse := by rw [hrev]; exact List.mem_cons_self _ _
    exact List.mem_reverse.mp this
  have hBlast : ∀ c, (b ++ "/" ++ d).data.getLast? = some c → c ≠ '/' := by
    intro c hc
    have hgl : (b ++ "/" ++ d).data.getLast? = some c0 := by
      rw [← List.head?_reverse, data_slash_append, List.reverse_append, hrev]
      rfl
    rw [hgl] at hc
    injection hc with hc
    subst hc
    exact hdns c0 hc0mem
  have hBne : (b ++ "/" ++ d).data ≠ [] := by
    rw [data_slash_append]
    simp
  unfold report_id_of
  rw [py_dirname_append_seg (b ++ "/" ++ d) "raw_data" (by decide) hBne hBlast]
  exact py_basename_append_seg b d hdns

/-- C6 counterexample: qualification is a substring test, not a
path-segment test (`reports/old_raw_database` qualifies though no
segment equals `raw_data`); and inside `reports/alpha/raw_data/sub` —
also walked and qualifying — the files are tagged with report id
`raw_data`, the parent of the walked directory, not `alpha`, the parent
of the `raw_data` segment. -/
theorem C6_walker_cx :
    qualifies_raw_data "reports/old_raw_database" = true ∧
    spec_has_raw_data_segment "reports/old_raw_database" = false ∧
    qualifies_raw_data "reports/alpha/raw_data/sub" = true ∧
    spec_has_raw_data_segment "reports/alpha/raw_data/sub" = true ∧
    report_id_of "reports/alpha/raw_data/sub" = "raw_data" ∧
    spec_raw_data_parent "reports/alpha/raw_data/sub" = some "alpha" ∧
    ("raw_data" : String) ≠ "alpha" :=
  ⟨rfl, rfl, rfl, rfl, rfl, rfl, by decide⟩

/-- C6 (amended): a walked directory qualifies exactly when its path
contains `raw_data` as a substring (hence also for every deeper
directory below a qualifying one); each `.json`-suffixed file found in a
walked directory is tagged with the name of that directory's parent —
which is the report directory's name for the raw-data root itself, but
is `raw_data` for the files walked inside its subdirectories. -/
theorem C6_walker_amended :
    (∀ root : String,
      qualifies_raw_data root = containsSub "raw_data".data root.data) ∧
    (∀ root sub : String, qualifies_raw_data root = true →
      qualifies_raw_data (root ++ sub) = true) ∧
    (∀ b d : String, d.data ≠ [] → (∀ c ∈ d.data, c ≠ '/') → b.data ≠ [] →
      qualifies_raw_data (b ++ "/" ++ d ++ "/" ++ "raw_data") = true ∧
      report_id_of (b ++ "/" ++ d ++ "/" ++ "raw_data") = d) ∧
    report_id_of "reports/alpha/raw_data/sub" = "raw_data" ∧
    (∀ file : String,
      is_json_file file = ".json".data.isSuffixOf file.data) := by
  refine ⟨fun root => rfl, ?_, ?_, rfl, fun file => rfl⟩
  · intro root sub h
    unfold qualifies_raw_data at h ⊢
    rw [String.data_append]
    exact containsSub_append_right _ _ _ h
  · intro b d hd hdns hb
    refine ⟨?_, report_id_of_raw_root b d hd hdns hb⟩
    unfold qualifies_raw_data
    have : (b ++ "/" ++ d ++ "/" ++ "raw_data").data =
        (b ++ "/" ++ d ++ "/").data ++ "raw_data".data := by
      rw [String.data_append]
    rw [this]
    exact containsSub_append_self _ _

/-- Witness for C6 at a concrete report layout. -/
theorem C6_walker_amended_witness :
    qualifies_raw_data
        ("reports" ++ "/" ++ "20260204_110300_berlin_ops" ++ "/" ++ "raw_data") =
      true ∧
    report_id_of
        ("reports" ++ "/" ++ "20260204_110300_berlin_ops" ++ "/" ++ "raw_data") =
      "20260204_110300_berlin_ops" :=
  C6_walker_amended.2.2.1 "reports" "20260204_110300_berlin_ops"
    (by decide) (by decide) (by decide)
